import Mathlib

/-!
Verification development for the `exif_rename` program.

This file shallowly embeds the data model and the operations of
`exif_rename.py`: the `Status` outcome enum, CPython-style `strptime` /
`strftime` over the directives the program uses, `pathlib`-style path helpers,
`datetime.astimezone` arithmetic, the `Extractable` naming / collision /
rename machinery (with `Image` and `Video` variants), and the per-file driver
`execute_by_path`.  The filesystem is modelled as an association list from
path strings to sizes, the exception behaviour of the Python code as an
`Except PyErr` result, and the unbounded collision `while` loop by explicit
fuel (a `none` result means the loop did not finish within the given fuel).
-/

set_option maxRecDepth 8000

deriving instance DecidableEq for Except

namespace ExifRename

/-- Embeds `Status` enum of exif_rename.py (ERROR = 0, RENAMED = 1, UNCHANGED = 2). -/
inductive Status where
  | ERROR
  | RENAMED
  | UNCHANGED
deriving DecidableEq, Repr

/-- Python exceptions that the embedded code paths can raise. -/
inductive PyErr where
  | lookupError (msg : String)
  | keyError (key : String)
  | indexError
  | valueError
  | unboundLocalError
  | osError
deriving DecidableEq, Repr

/-- A `datetime.datetime` value: calendar fields plus an optional fixed UTC
offset in minutes (`tz = none` models a naive datetime). -/
structure DateTime where
  year : Int
  month : Nat
  day : Nat
  hour : Nat
  minute : Nat
  second : Nat
  micro : Nat
  tz : Option Int
deriving DecidableEq, Repr

/-! ### Character and string helpers -/

/-- Numeric value of a decimal digit character. -/
def dval (c : Char) : Nat := c.toNat - '0'.toNat

/-- ASCII lower-casing of one character (as `str.lower` does on ASCII). -/
def lowerChar (c : Char) : Char :=
  if 'A' ≤ c ∧ c ≤ 'Z' then Char.ofNat (c.toNat + 32) else c

/-- ASCII lower-casing of a string. -/
def strLower (s : String) : String := String.mk (s.data.map lowerChar)

/-- Split a character list at every occurrence of `sep`; the result is always
non-empty (like Python `str.split` with a separator). -/
def splitChar (sep : Char) : List Char → List (List Char)
  | [] => [[]]
  | c :: rest =>
    let r := splitChar sep rest
    if c = sep then [] :: r
    else
      match r with
      | h :: t => (c :: h) :: t
      | [] => [[c]]

/-- Interleave `'/'` between path components (inverse of splitting on `'/'`). -/
def joinSlash : List (List Char) → List Char
  | [] => []
  | [x] => x
  | x :: xs => x ++ '/' :: joinSlash xs

/-- Split a name at its last `'.'`, returning the part before it and the part
from the dot on; `none` when the name has no dot. -/
def splitLastDot : List Char → Option (List Char × List Char)
  | [] => none
  | c :: rest =>
    match splitLastDot rest with
    | some (b, a) => some (c :: b, a)
    | none => if c = '.' then some ([], c :: rest) else none

/-! ### `pathlib.Path` operations (paths are plain strings) -/

/-- Embeds `Path.name`: the final path component. -/
def pathName (p : String) : String :=
  String.mk ((splitChar '/' p.data).getLastD [])

/-- Embeds `Path.parent`: everything before the final component, `"."` when there is
no directory part. -/
def pathParent (p : String) : String :=
  let parts := splitChar '/' p.data
  if parts.length ≤ 1 then "." else String.mk (joinSlash parts.dropLast)

/-- Embeds `dir / name` for the cases the program produces (a `"."` parent behaves as
in `pathlib`, where `Path(".") / n == Path(n)`). -/
def pathJoin (d n : String) : String :=
  if d = "." then n else d ++ "/" ++ n

/-- Embeds `Path.suffix`: the last dot-suffix of the name, `""` when the only dot is
leading or trailing. -/
def pathSuffix (p : String) : String :=
  let n := (pathName p).data
  match splitLastDot n with
  | some (b, a) => if b ≠ [] ∧ a.length ≥ 2 then String.mk a else ""
  | none => ""

/-- Embeds `Path.suffixes`: all dot-suffixes of the name, the CPython form
`name.lstrip('.').split('.')[1:]` with the trailing-dot guard. -/
def pathSuffixes (p : String) : List String :=
  let n := (pathName p).data
  if n.getLastD ' ' = '.' then []
  else
    let n' := n.dropWhile (· = '.')
    ((splitChar '.' n').drop 1).map (fun s => String.mk ('.' :: s))

/-- Embeds `Path.with_suffix`: replace the last suffix of the name by `s`. -/
def withSuffix (p s : String) : String :=
  let n := pathName p
  let sfx := pathSuffix p
  let stem := String.mk (n.data.take (n.length - sfx.length))
  pathJoin (pathParent p) (stem ++ s)

/-! ### `strftime` (the directives the program formats with) -/

/-- Zero-pad a natural number to width `w`. -/
def padNat (w : Nat) (n : Nat) : String :=
  let s := toString n
  if s.length < w then String.mk (List.replicate (w - s.length) '0' ++ s.data) else s

/-- Directive `%Y`: the year, zero-padded to four digits. -/
def padYear (y : Int) : String :=
  if y < 0 then toString y else padNat 4 y.toNat

/-- Directive `%z` rendering of an optional offset (empty for a naive datetime). -/
def tzString : Option Int → String
  | none => ""
  | some off =>
    let sign := if off < 0 then "-" else "+"
    let a := off.natAbs
    sign ++ padNat 2 (a / 60) ++ padNat 2 (a % 60)

/-- Core of `datetime.strftime` over the directive characters the program can
emit; an unknown directive is kept verbatim. -/
def strftimeAux (dt : DateTime) : List Char → List Char
  | [] => []
  | ['%'] => ['%']
  | '%' :: c :: rest =>
    (match c with
     | 'Y' => (padYear dt.year).data
     | 'm' => (padNat 2 dt.month).data
     | 'd' => (padNat 2 dt.day).data
     | 'H' => (padNat 2 dt.hour).data
     | 'M' => (padNat 2 dt.minute).data
     | 'S' => (padNat 2 dt.second).data
     | 'f' => (padNat 6 dt.micro).data
     | 'z' => (tzString dt.tz).data
     | '%' => ['%']
     | other => ['%', other]) ++ strftimeAux dt rest
  | c :: rest => c :: strftimeAux dt rest

/-- Embeds `datetime.strftime`. -/
def strftime (dt : DateTime) (fmt : String) : String :=
  String.mk (strftimeAux dt fmt.data)

/-! ### `strptime`

The CPython `_strptime` module compiles the format into a regular expression with one
ordered alternation per directive and matches it against the whole input.  We
mirror that with a backtracking matcher: each directive yields its candidate
`(value, remaining input)` pairs in the alternation order of the regex, and
matching continues with the rest of the format on each candidate in turn. -/

/-- Fields captured while matching a `strptime` format. -/
structure PParts where
  y : Option Nat := none
  mo : Option Nat := none
  d : Option Nat := none
  h : Option Nat := none
  mi : Option Nat := none
  s : Option Nat := none
  f : Option Nat := none
  z : Option Int := none
deriving Repr

/-- Directive `%Y` candidates: exactly four digits. -/
def candY : List Char → List (Nat × List Char)
  | a :: b :: c :: d :: rest =>
    if a.isDigit ∧ b.isDigit ∧ c.isDigit ∧ d.isDigit then
      [(dval a * 1000 + dval b * 100 + dval c * 10 + dval d, rest)]
    else []
  | _ => []

/-- Directive `%m` candidates, regex `1[0-2]|0[1-9]|[1-9]` in order. -/
def candMo (inp : List Char) : List (Nat × List Char) :=
  (match inp with
   | a :: b :: rest =>
     (if a = '1' ∧ b.isDigit ∧ dval b ≤ 2 then [(10 + dval b, rest)] else []) ++
     (if a = '0' ∧ b.isDigit ∧ 1 ≤ dval b then [(dval b, rest)] else [])
   | _ => []) ++
  (match inp with
   | a :: rest => if a.isDigit ∧ 1 ≤ dval a then [(dval a, rest)] else []
   | [] => [])

/-- Directive `%d` candidates, regex `3[01]|[12]\d|0[1-9]|[1-9]` in order. -/
def candD (inp : List Char) : List (Nat × List Char) :=
  (match inp with
   | a :: b :: rest =>
     (if a = '3' ∧ b.isDigit ∧ dval b ≤ 1 then [(30 + dval b, rest)] else []) ++
     (if (a = '1' ∨ a = '2') ∧ b.isDigit then [(dval a * 10 + dval b, rest)] else []) ++
     (if a = '0' ∧ b.isDigit ∧ 1 ≤ dval b then [(dval b, rest)] else [])
   | _ => []) ++
  (match inp with
   | a :: rest => if a.isDigit ∧ 1 ≤ dval a then [(dval a, rest)] else []
   | [] => [])

/-- Directive `%H` candidates, regex `2[0-3]|[0-1]\d|\d` in order. -/
def candH (inp : List Char) : List (Nat × List Char) :=
  (match inp with
   | a :: b :: rest =>
     (if a = '2' ∧ b.isDigit ∧ dval b ≤ 3 then [(20 + dval b, rest)] else []) ++
     (if (a = '0' ∨ a = '1') ∧ b.isDigit then [(dval a * 10 + dval b, rest)] else [])
   | _ => []) ++
  (match inp with
   | a :: rest => if a.isDigit then [(dval a, rest)] else []
   | [] => [])

/-- Directive `%M` candidates, regex `[0-5]\d|\d` in order. -/
def candMi (inp : List Char) : List (Nat × List Char) :=
  (match inp with
   | a :: b :: rest =>
     if a.isDigit ∧ dval a ≤ 5 ∧ b.isDigit then [(dval a * 10 + dval b, rest)] else []
   | _ => []) ++
  (match inp with
   | a :: rest => if a.isDigit then [(dval a, rest)] else []
   | [] => [])

/-- Directive `%S` candidates, regex `6[0-1]|[0-5]\d|\d` in order. -/
def candS (inp : List Char) : List (Nat × List Char) :=
  (match inp with
   | a :: b :: rest =>
     (if a = '6' ∧ b.isDigit ∧ dval b ≤ 1 then [(60 + dval b, rest)] else []) ++
     (if a.isDigit ∧ dval a ≤ 5 ∧ b.isDigit then [(dval a * 10 + dval b, rest)] else [])
   | _ => []) ++
  (match inp with
   | a :: rest => if a.isDigit then [(dval a, rest)] else []
   | [] => [])

/-- Directive `%f` candidates, regex `[0-9]{1,6}` (greedy, so longest first); the value
is right-padded with zeros to microseconds as `_strptime` does. -/
def candF (inp : List Char) : List (Nat × List Char) :=
  let n := min (inp.takeWhile Char.isDigit).length 6
  (List.range n).map (fun j =>
    let k := n - j
    ((inp.take k).foldl (fun acc c => acc * 10 + dval c) 0 * 10 ^ (6 - k), inp.drop k))

/-- Rests after the optional fraction `(\.\d{1,6})?` of a `%z` seconds field
(greedy, so with-fraction candidates first, longest first). -/
def fracRests (r : List Char) : List (List Char) :=
  match r with
  | '.' :: rest =>
    let run := min (rest.takeWhile Char.isDigit).length 6
    ((List.range run).map (fun j => rest.drop (run - j))) ++ [r]
  | _ => [r]

/-- Two decimal digits, with an optional leading `':'` (regex `:?\d\d`). -/
def colonPair : List Char → Option (Nat × List Char)
  | ':' :: m1 :: m2 :: r =>
    if m1.isDigit ∧ m2.isDigit then some (dval m1 * 10 + dval m2, r) else none
  | m1 :: m2 :: r =>
    if m1.isDigit ∧ m2.isDigit then some (dval m1 * 10 + dval m2, r) else none
  | _ => none

/-- Directive `%z` candidates, regex `[+-]\d\d:?\d\d(:?\d\d(\.\d{1,6})?)?|Z`; the value
is the offset in minutes (the rarely-used seconds part only affects how much
input is consumed, as the program never formats offsets with seconds). -/
def candZ (inp : List Char) : List (Int × List Char) :=
  match inp with
  | 'Z' :: rest => [((0 : Int), rest)]
  | s :: h1 :: h2 :: rest =>
    if (s = '+' ∨ s = '-') ∧ h1.isDigit ∧ h2.isDigit then
      let sign : Int := if s = '-' then -1 else 1
      let hh := dval h1 * 10 + dval h2
      match colonPair rest with
      | none => []
      | some (mm, r2) =>
        let base := sign * (hh * 60 + mm)
        let secCands : List (List Char) :=
          match colonPair r2 with
          | some (_, r3) => fracRests r3
          | none => []
        (secCands.map (fun r => (base, r))) ++ [(base, r2)]
    else []
  | _ => []

/-- Rests after consuming at least one whitespace character (format whitespace
is compiled to `\s+`), greedy order. -/
def wsRests (inp : List Char) : List (List Char) :=
  let run := (inp.takeWhile Char.isWhitespace).length
  (List.range run).map (fun j => inp.drop (run - j))

/-- The backtracking matcher: format characters against input characters.
Literal characters match case-insensitively (the compiled regex carries
`re.IGNORECASE`), and the whole input must be consumed. -/
def mtch : List Char → List Char → PParts → Option PParts
  | [], inp, p => if inp.isEmpty then some p else none
  | '%' :: 'Y' :: fr, inp, p =>
    (candY inp).findSome? (fun vr => mtch fr vr.2 { p with y := some vr.1 })
  | '%' :: 'm' :: fr, inp, p =>
    (candMo inp).findSome? (fun vr => mtch fr vr.2 { p with mo := some vr.1 })
  | '%' :: 'd' :: fr, inp, p =>
    (candD inp).findSome? (fun vr => mtch fr vr.2 { p with d := some vr.1 })
  | '%' :: 'H' :: fr, inp, p =>
    (candH inp).findSome? (fun vr => mtch fr vr.2 { p with h := some vr.1 })
  | '%' :: 'M' :: fr, inp, p =>
    (candMi inp).findSome? (fun vr => mtch fr vr.2 { p with mi := some vr.1 })
  | '%' :: 'S' :: fr, inp, p =>
    (candS inp).findSome? (fun vr => mtch fr vr.2 { p with s := some vr.1 })
  | '%' :: 'f' :: fr, inp, p =>
    (candF inp).findSome? (fun vr => mtch fr vr.2 { p with f := some vr.1 })
  | '%' :: 'z' :: fr, inp, p =>
    (candZ inp).findSome? (fun vr => mtch fr vr.2 { p with z := some vr.1 })
  | '%' :: '%' :: fr, inp, p =>
    (match inp with
     | '%' :: ir => mtch fr ir p
     | _ => none)
  | '%' :: _ :: _, _, _ => none
  | ['%'], _, _ => none
  | c :: fr, inp, p =>
    if c.isWhitespace then (wsRests inp).findSome? (fun r => mtch fr r p)
    else
      match inp with
      | i :: ir => if lowerChar c = lowerChar i then mtch fr ir p else none
      | [] => none

/-- Gregorian leap year. -/
def isLeap (y : Int) : Bool := y % 4 = 0 ∧ (y % 100 ≠ 0 ∨ y % 400 = 0)

/-- Days in a month (month assumed 1..12). -/
def daysInMonth (y : Int) (m : Nat) : Nat :=
  if m = 2 then (if isLeap y then 29 else 28)
  else if m = 4 ∨ m = 6 ∨ m = 9 ∨ m = 11 then 30
  else 31

/-- Embeds `datetime.strptime`: match the format, then build the datetime with the
defaults and validity checks of the `datetime` constructor (an invalid date,
a leap second, year 0, or an out-of-range offset raise `ValueError`, which the
callers in the program observe as a parse failure). -/
def strptime (s fmt : String) : Option DateTime :=
  match mtch fmt.data s.data {} with
  | none => none
  | some p =>
    let y := p.y.getD 1900
    let mo := p.mo.getD 1
    let d := p.d.getD 1
    let h := p.h.getD 0
    let mi := p.mi.getD 0
    let sec := p.s.getD 0
    if y = 0 then none
    else if daysInMonth (y : Int) mo < d then none
    else if 59 < sec then none
    else
      match p.z with
      | some z =>
        if z ≤ -1440 ∨ 1440 ≤ z then none
        else some ⟨(y : Int), mo, d, h, mi, sec, p.f.getD 0, some z⟩
      | none => some ⟨(y : Int), mo, d, h, mi, sec, p.f.getD 0, none⟩

/-! ### Calendar arithmetic (for `timedelta` addition and `astimezone`) -/

/-- Days since 1970-01-01 of a civil date (the Hinnant algorithm `days_from_civil`). -/
def daysFromCivil (y : Int) (m d : Nat) : Int :=
  let y' := if m ≤ 2 then y - 1 else y
  let era := y'.fdiv 400
  let yoe := (y' - era * 400).toNat
  let mp := if 3 ≤ m then m - 3 else m + 9
  let doy := (153 * mp + 2) / 5 + (d - 1)
  let doe := yoe * 365 + yoe / 4 - yoe / 100 + doy
  era * 146097 + (doe : Int) - 719468

/-- Civil date of a count of days since 1970-01-01 (the Hinnant algorithm
`civil_from_days`). -/
def civilFromDays (z : Int) : Int × Nat × Nat :=
  let z' := z + 719468
  let era := z'.fdiv 146097
  let doe := (z' - era * 146097).toNat
  let yoe := (doe - doe / 1460 + doe / 36524 - doe / 146096) / 365
  let y := (yoe : Int) + era * 400
  let doy := doe - (365 * yoe + yoe / 4 - yoe / 100)
  let mp := (5 * doy + 2) / 153
  let d := doy - (153 * mp + 2) / 5 + 1
  let m := if mp < 10 then mp + 3 else mp - 9
  (if m ≤ 2 then y + 1 else y, m, d)

/-- Seconds since the epoch of the clock fields (ignoring the offset). -/
def toEpochSecs (dt : DateTime) : Int :=
  daysFromCivil dt.year dt.month dt.day * 86400
    + ((dt.hour * 3600 + dt.minute * 60 + dt.second : Nat) : Int)

/-- Shift the clock fields of a datetime by a whole number of seconds,
keeping the microsecond and offset fields. -/
def dtAddSeconds (dt : DateTime) (delta : Int) : DateTime :=
  let total := toEpochSecs dt + delta
  let days := total.fdiv 86400
  let rem := (total - days * 86400).toNat
  let c := civilFromDays days
  { dt with
    year := c.fst
    month := c.snd.fst
    day := c.snd.snd
    hour := rem / 3600
    minute := rem % 3600 / 60
    second := rem % 60 }

/-- Embeds `datetime.astimezone(timezone(target))` with a fixed-offset system local
timezone `sysMin`: a naive datetime is presumed to be in the system timezone
(this is documented CPython behaviour), an aware one uses its own offset;
the instant is converted to the target offset, which becomes the new
`tzinfo`. -/
def pyAstimezone (dt : DateTime) (targetMin : Int) (sysMin : Int) : DateTime :=
  let base := dt.tz.getD sysMin
  { dtAddSeconds dt ((targetMin - base) * 60) with tz := some targetMin }

/-! ### Filesystem model

The filesystem namespace is an association list from path strings to sizes
(the size doubles as an opaque content tag: `Path.rename` carries it over,
while an ffmpeg output gets a fresh one). -/

/-- Filesystem state: existing files with their sizes. -/
abbrev FS := List (String × Nat)

/-- Embeds `Path.exists()`. -/
def fsExists : FS → String → Bool
  | [], _ => false
  | e :: tl, p => if e.1 = p then true else fsExists tl p

/-- Embeds `Path.stat().st_size`, `none` when the file does not exist. -/
def fsLookup : FS → String → Option Nat
  | [], _ => none
  | e :: tl, p => if e.1 = p then some e.2 else fsLookup tl p

/-- Embeds `Path.rename(new)` / `os.rename`. -/
def fsRename : FS → String → String → FS
  | [], _, _ => []
  | e :: tl, old, new => (if e.1 = old then (new, e.2) else e) :: fsRename tl old new

/-- Embeds `Path.unlink()`. -/
def fsUnlink : FS → String → FS
  | [], _ => []
  | e :: tl, p => if e.1 = p then fsUnlink tl p else e :: fsUnlink tl p

/-- Creation of a file with a given size, replacing any existing one
(ffmpeg runs with `overwrite_output`). -/
def fsWrite (fs : FS) (p : String) (sz : Nat) : FS := (p, sz) :: fsUnlink fs p

/-! ### `Extractable` configuration and the CLI arguments it consumes -/

/-- The naming state of an `Extractable` instance: `prefix`, `suffix`,
`time_format` and `extensions` (the first two renamed, as `prefix` is
reserved in Lean). -/
structure Cfg where
  prefixStr : Option String := none
  suffixStr : Option String := none
  timeFormat : String := "%Y%m%d_%H%M%S"
  extensions : List String := []
deriving DecidableEq, Repr

/-- Embeds `Image.__init__`: prefix `IMG_` and the claimed extension set. -/
def imageCfg : Cfg := { prefixStr := some "IMG_", extensions := [".jpg", ".jpeg", ".png"] }

/-- Embeds `Video.__init__`: prefix `VID_` and the claimed extension set. -/
def videoCfg : Cfg := { prefixStr := some "VID_", extensions := [".mp4"] }

/-- The command-line arguments the engine reads (an absent string option is
`none`; Python truthiness makes an empty string behave like an absent one). -/
structure Args where
  prefixArg : Option String := none
  suffixArg : Option String := none
  timeFormatArg : Option String := none
  ignoreTimezone : Bool := false
  dry : Bool := false
  listMeta : Bool := false
  videoThumbnailSkipCreation : Bool := false
deriving DecidableEq, Repr

/-- The `if args.prefix: parser_inst.prefix = args.prefix` override block of
`execute_by_path` (and likewise for suffix and time format). -/
def applyArgs (cfg : Cfg) (args : Args) : Cfg :=
  let c1 := match args.prefixArg with
    | some s => if s = "" then cfg else { cfg with prefixStr := some s }
    | none => cfg
  let c2 := match args.suffixArg with
    | some s => if s = "" then c1 else { c1 with suffixStr := some s }
    | none => c1
  match args.timeFormatArg with
  | some s => if s = "" then c2 else { c2 with timeFormat := s }
  | none => c2

/-- Embeds `Extractable.use`: case-insensitive membership of the last path suffix
in the extension list of the instance. -/
def Cfg.use (cfg : Cfg) (path : String) : Bool :=
  cfg.extensions.contains (strLower (pathSuffix path))

/-- Embeds `Extractable.get_name`: build the `strftime` template
`[prefix]<time_format>[_counter][suffix]<joined extensions>` — note that a
non-empty declared `extensions` list is joined in full — and format the
timestamp with it under the target directory. -/
def getName (cfg : Cfg) (path : String) (dt : DateTime) (counter : Option Nat)
    (dir : Option String) : String :=
  let fmt := cfg.timeFormat
  let fmt := match cfg.prefixStr with
    | some p => if p = "" then fmt else p ++ fmt
    | none => fmt
  let fmt := match counter with
    | some c => if c = 0 then fmt else fmt ++ "_" ++ toString c
    | none => fmt
  let fmt := match cfg.suffixStr with
    | some s => if s = "" then fmt else fmt ++ s
    | none => fmt
  let exts := if cfg.extensions.isEmpty then
      (pathSuffixes path).filter (fun p => p != "" && p != ".")
    else cfg.extensions
  let fmt := fmt ++ String.join exts
  pathJoin (dir.getD (pathParent path)) (strftime dt fmt)

/-- Embeds `Extractable.matches` (named `matchesFilters` here, as `matches` is
reserved in Lean): every filter key must be present in the metadata mapping
with an equal string representation (the mapping is given here already keyed
by the `str` of its values). -/
def matchesFilters (d : List (String × String)) : List (String × String) → Bool
  | [] => true
  | (k, v) :: rest =>
    match d.lookup k with
    | some dv => if dv ≠ v then false else matchesFilters d rest
    | none => false

/-! ### `Image` metadata: creation time and timezone resolution -/

/-- Image EXIF metadata as `piexif.load` returns it (with the `thumbnail`
entry already deleted): groups of numeric-tag/value entries; values are the
already-UTF-8-decoded strings. -/
abbrev ExifDict := List (String × List (Nat × String))

/-- Embeds `Image.date_keys`: the ordered (group, tag) search list. -/
def dateKeys : List (String × List Nat) :=
  [("Exif", [36867, 36868]), ("GPS", [29]), ("0th", [306]), ("1st", [306])]

/-- Embeds `Image.date_formats`, in order. -/
def dateFormats : List String :=
  ["%Y:%m:%d %H:%M:%S", "%Y-%m-%d %H:%M:%S", "%Y%m%d%H%M%S", "%Y-%m-%dT%H:%M:%S.%f%z"]

/-- Embeds `Image.timezone_keys`: group-specific candidate tags. -/
def timezoneKeys : List (String × List Nat) :=
  [("0th", [34858]), ("1st", [34858]), ("Exif", [36880, 36881, 36882])]

/-- Embeds `Image.timezone_formats`, in order. -/
def timezoneFormats : List String := ["+%H:%M", "%H:%M", "+%H", "%H"]

/-- The inner format loop of `Image._get_time_zone`: first format that parses
wins, and the offset is `timedelta(hours=tz_dt.hour, minutes=tz_dt.minute)`
in minutes. -/
def tzFromStr (v : String) : Option Int :=
  timezoneFormats.findSome? (fun f => (strptime v f).map (fun dt => ((dt.hour * 60 + dt.minute : Nat) : Int)))

/-- Embeds `Image._get_time_zone`: for a group with candidate keys, the first
key-and-format combination that parses wins; no match is `None`, not an
error.  Accessing `exif_dict[group]` for a group absent from the metadata
raises `KeyError` (the only caller guards this). -/
def Image.getTimeZone (group : String) (exifDict : ExifDict) : Except PyErr (Option Int) :=
  match timezoneKeys.lookup group with
  | none => .ok none
  | some keys =>
    match exifDict.lookup group with
    | none => .error (.keyError group)
    | some entries => .ok (keys.findSome? (fun k => (entries.lookup k).bind tzFromStr))

/-- The (group, value) of the first `date_keys` entry present in the
metadata. -/
def findFirstDateKey (exifDict : ExifDict) : Option (String × String) :=
  dateKeys.findSome? (fun gk =>
    gk.2.findSome? (fun k =>
      match exifDict.lookup gk.1 with
      | some entries => (entries.lookup k).map (fun v => (gk.1, v))
      | none => none))

/-- Embeds `Image.get_creation_time`.  In the source, the statement `return dt` sits inside the
first iteration of the format loop (after a `try`/`except ValueError: pass`),
so only the FIRST date format is ever attempted: if it parses, the timezone
is resolved and attached and the value returned; if it does not, the function
reads the never-assigned local `dt` and raises `UnboundLocalError`.  When no
(group, key) is present at all it raises `LookupError`. -/
def Image.getCreationTime (exifDict : ExifDict) (fileName : String) : Except PyErr DateTime :=
  match findFirstDateKey exifDict with
  | none => .error (.lookupError ("Could not find any time tag for file " ++ fileName))
  | some gv =>
    match strptime gv.2 (dateFormats.headD "") with
    | none =>
      match Image.getTimeZone gv.1 exifDict with
      | .error e => .error e
      | .ok _ => .error .unboundLocalError
    | some dt =>
      match Image.getTimeZone gv.1 exifDict with
      | .error e => .error e
      | .ok none => .ok dt
      | .ok (some off) => .ok { dt with tz := some off }

/-! ### `Video` metadata -/

/-- Video metadata as `ffmpeg.probe` returns it: an optional `streams` list
(`none` models a missing `streams` key) whose elements each carry an optional
`tags` mapping. -/
structure VideoMeta where
  streams : Option (List (Option (List (String × String)))) := none
deriving DecidableEq, Repr

/-- Embeds `Video.get_creation_time`: read `tags["streams"][0]["tags"]
["creation_time"]`; a `KeyError` anywhere in that chain is re-raised as
`LookupError`, while an empty `streams` list raises `IndexError` (not a
`KeyError`, hence uncaught by the handler); the value is then parsed with
the ISO format, an unparsable value raising `ValueError`. -/
def Video.getCreationTime (meta : VideoMeta) (fileName : String) : Except PyErr DateTime :=
  match meta.streams with
  | none => .error (.lookupError ("Could not find creation time tag for file " ++ fileName))
  | some [] => .error .indexError
  | some (none :: _) => .error (.lookupError ("Could not find creation time tag for file " ++ fileName))
  | some (some tags :: _) =>
    match tags.lookup "creation_time" with
    | none => .error (.lookupError ("Could not find creation time tag for file " ++ fileName))
    | some iso =>
      match strptime iso "%Y-%m-%dT%H:%M:%S.%f%z" with
      | none => .error .valueError
      | some dt => .ok dt

/-! ### `Extractable.rename`: collision loop and the after-rename hooks -/

/-- What the body of `Extractable.rename` decides after the collision loop:
either the (possibly disambiguated) candidate equals the current path, or a
target to rename onto was found. -/
inductive Decision where
  | unchanged
  | doRename (target : String)
deriving DecidableEq, Repr

/-- The `while target_name.exists()` loop of `Extractable.rename`, with
explicit fuel: while the candidate exists it is regenerated with the next
counter (starting from the given `i`), returning `unchanged` as soon as a
candidate equals the own path of the file. -/
def renameLoop (cfg : Cfg) (fs : FS) (path : String) (dt : DateTime) :
    String → Nat → Nat → Option Decision
  | _, _, 0 => none
  | target, i, fuel + 1 =>
    if fsExists fs target then
      if getName cfg path dt (some i) none = path then some .unchanged
      else renameLoop cfg fs path dt (getName cfg path dt (some i) none) (i + 1) fuel
    else some (.doRename target)

/-- The decision part of `Extractable.rename`: the counterless candidate is
generated first and compared with the current path, then the collision loop
runs with counters from 2. -/
def renameDecide (cfg : Cfg) (fs : FS) (path : String) (dt : DateTime) (fuel : Nat) :
    Option Decision :=
  if getName cfg path dt none none = path then some .unchanged
  else renameLoop cfg fs path dt (getName cfg path dt none none) 2 fuel

/-- Embeds `Extractable.rename` for the base/`Image` behaviour (the base
`before_rename` is the identity hook and the base `after_rename` returns
`Status.UNCHANGED` together with the path it was handed, DISCARDING the
incoming status — so even a performed rename is reported as `UNCHANGED`).
The result pairs the Python return value with the filesystem state. -/
def imageRename (cfg : Cfg) (fs : FS) (path : String) (dt : DateTime) (dry : Bool)
    (fuel : Nat) : Option (Except PyErr (Status × String) × FS) :=
  match renameDecide cfg fs path dt fuel with
  | none => none
  | some .unchanged => some (.ok (.UNCHANGED, path), fs)
  | some (.doRename t) =>
    if dry then some (.ok (.UNCHANGED, path), fs)
    else some (.ok (.UNCHANGED, t), fsRename fs path t)

/-- The ffmpeg collaborator for the video thumbnail post-step: whether each
of the two invocations succeeds and the sizes of the files they produce. -/
structure Ffmpeg where
  thumbOk : Bool := true
  thumbSize : Nat := 0
  muxOk : Bool := true
  tmpSize : Nat := 0
deriving DecidableEq, Repr

/-- Embeds `Video.after_rename`.  `super().after_rename` turns any status into
`UNCHANGED`; unless thumbnail creation is skipped, a non-dry run writes the
sibling `.jpg` thumbnail and the `.output<suffix>` temporary via ffmpeg (an
`ffmpeg.Error` is caught and degrades the result to `ERROR`), after which —
dry or not — the temporary, if it exists with at least the size of the file,
replaces the file: the thumbnail and the file are unlinked and the temporary
renamed onto the path.  In a dry run `thumbnail_path` was never assigned, so
reaching that cleanup raises `UnboundLocalError` (before any mutation). -/
def afterVideoRename (args : Args) (ff : Ffmpeg) (pathIn : String) (dry : Bool)
    (fs : FS) : Except PyErr (Status × String) × FS :=
  let newPath := pathIn
  if args.videoThumbnailSkipCreation then (.ok (.UNCHANGED, newPath), fs)
  else
    let tmpPath := withSuffix newPath (".output" ++ pathSuffix newPath)
    let thumbPath := withSuffix newPath ".jpg"
    if dry then
      match fsLookup fs tmpPath with
      | none => (.ok (.UNCHANGED, newPath), fs)
      | some ts =>
        match fsLookup fs newPath with
        | none => (.error .osError, fs)
        | some ns =>
          if ns ≤ ts then (.error .unboundLocalError, fs)
          else (.ok (.UNCHANGED, newPath), fs)
    else
      if !ff.thumbOk then (.ok (.ERROR, newPath), fs)
      else
        let fs1 := fsWrite fs thumbPath ff.thumbSize
        if !ff.muxOk then (.ok (.ERROR, newPath), fs1)
        else
          let fs2 := fsWrite fs1 tmpPath ff.tmpSize
          match fsLookup fs2 tmpPath with
          | none => (.ok (.UNCHANGED, newPath), fs2)
          | some ts =>
            match fsLookup fs2 newPath with
            | none => (.error .osError, fs2)
            | some ns =>
              if ns ≤ ts then
                (.ok (.UNCHANGED, newPath),
                  fsRename (fsUnlink (fsUnlink fs2 thumbPath) newPath) tmpPath newPath)
              else (.ok (.UNCHANGED, newPath), fs2)

/-- Embeds `Extractable.rename` with `Video.after_rename` as the after hook. -/
def videoRename (args : Args) (ff : Ffmpeg) (cfg : Cfg) (fs : FS) (path : String)
    (dt : DateTime) (dry : Bool) (fuel : Nat) :
    Option (Except PyErr (Status × String) × FS) :=
  match renameDecide cfg fs path dt fuel with
  | none => none
  | some .unchanged => some (afterVideoRename args ff path dry fs)
  | some (.doRename t) =>
    if dry then some (afterVideoRename args ff path dry fs)
    else some (afterVideoRename args ff t dry (fsRename fs path t))

/-! ### `execute_by_path` -/

/-- The external collaborators of one `execute_by_path` call: the metadata
the probes of this file return (`imageListRepr` / `videoListRepr` are the
same mappings keyed by the `str` of their top-level values, as
`Extractable.matches` consumes them), the fixed local UTC offset of the system in
minutes (consulted by `astimezone` on naive datetimes), and the ffmpeg
behaviour. -/
structure Env where
  imageMeta : ExifDict := []
  imageListRepr : List (String × String) := []
  videoMeta : VideoMeta := {}
  videoListRepr : List (String × String) := []
  sysTz : Int := 0
  ffmpeg : Ffmpeg := {}
deriving Repr

/-- Embeds `not filters or parser_inst.matches(filters)`: `None` and the empty
mapping are falsy. -/
def filtersPass (listRepr : List (String × String))
    (filters : Option (List (String × String))) : Bool :=
  match filters with
  | none => true
  | some [] => true
  | some fl => matchesFilters listRepr fl

/-- The time-adjustment block of `execute_by_path`: add `modify_time` when
supplied and non-zero (`timedelta(0)` is falsy), then convert to the target
timezone when supplied, else — under `--ignore-timezone` — `astimezone` to
UTC (which, for a naive value, presumes it is SYSTEM-LOCAL time and shifts
the clock accordingly). -/
def adjustTime (args : Args) (env : Env) (modifyTime : Option Int)
    (targetTz : Option Int) (ct : DateTime) : DateTime :=
  let ct := match modifyTime with
    | some secs => if secs = 0 then ct else dtAddSeconds ct secs
    | none => ct
  match targetTz with
  | some tz => pyAstimezone ct tz env.sysTz
  | none => if args.ignoreTimezone then pyAstimezone ct 0 env.sysTz else ct

/-- Embeds `execute_by_path`: try `Image` then `Video`; the first parser whose
`use()` succeeds and whose metadata passes the filters resolves the creation
time (an exception propagating uncaught — there is no handler in this
function or in `main`), adjusts it, and either lists metadata or renames.
When no parser claims the file the result is `Status.ERROR`. -/
def executeByPath (fs : FS) (path : String) (args : Args) (modifyTime : Option Int)
    (targetTz : Option Int) (filters : Option (List (String × String))) (env : Env)
    (fuel : Nat) : Option (Except PyErr Status × FS) :=
  let icfg := applyArgs imageCfg args
  if icfg.use path && filtersPass env.imageListRepr filters then
    match Image.getCreationTime env.imageMeta (pathName path) with
    | .error e => some (.error e, fs)
    | .ok ct =>
      let ct := adjustTime args env modifyTime targetTz ct
      if args.listMeta then some (.ok .UNCHANGED, fs)
      else
        match imageRename icfg fs path ct args.dry fuel with
        | none => none
        | some (.ok sp, fs') => some (.ok sp.1, fs')
        | some (.error e, fs') => some (.error e, fs')
  else
    let vcfg := applyArgs videoCfg args
    if vcfg.use path && filtersPass env.videoListRepr filters then
      match Video.getCreationTime env.videoMeta (pathName path) with
      | .error e => some (.error e, fs)
      | .ok ct =>
        let ct := adjustTime args env modifyTime targetTz ct
        if args.listMeta then some (.ok .UNCHANGED, fs)
        else
          match videoRename args env.ffmpeg vcfg fs path ct args.dry fuel with
          | none => none
          | some (.ok sp, fs') => some (.ok sp.1, fs')
          | some (.error e, fs') => some (.error e, fs')
    else some (.ok .ERROR, fs)

/-! ## Shared concrete instances used by several verification scenarios -/

/-- A naive 2023-05-01 10:00:00 timestamp. -/
def dt0 : DateTime := ⟨2023, 5, 1, 10, 0, 0, 0, none⟩

/-- The same timestamp carrying the UTC+02:00 offset. -/
def dtC5 : DateTime := ⟨2023, 5, 1, 10, 0, 0, 0, some 120⟩

/-- EXIF metadata of the image scenario of the specification:
`Exif.DateTimeOriginal = "2023:05:01 10:00:00"` and
`Exif.OffsetTimeOriginal = "+02:00"`. -/
def exifC5 : ExifDict := [("Exif", [(36867, "2023:05:01 10:00:00"), (36881, "+02:00")])]

/-- Two sibling video files that resolve to the same target name. -/
def fsTwo : FS := [("d/a.mp4", 1), ("d/b.mp4", 2)]

/-- The probe environment of the image scenario. -/
def envC2 : Env := { imageMeta := exifC5 }

/-- The probe environment of a video whose first stream has tags but no
`creation_time`. -/
def envC3 : Env := { videoMeta := { streams := some [some [("language", "eng")]] } }

/-- The probe environment of the naive-timestamp scenario: no timezone tag in
the metadata, and a system local timezone of UTC+02:00. -/
def envC6 : Env := { imageMeta := [("Exif", [(36867, "2023:05:01 10:00:00")])], sysTz := 120 }

/-- The probe environment of a video with representation `{"k": "2"}` for the
filter check. -/
def envC9 : Env :=
  { videoListRepr := [("k", "2")]
    videoMeta := { streams := some [some [("creation_time", "2023-05-01T10:00:00.000000+0000")]] } }

/-! ## Helper lemmas -/

/-- A found collision-loop target was checked not to exist. -/
theorem renameLoop_doRename_not_exists (cfg : Cfg) (fs : FS) (path : String)
    (dt : DateTime) :
    ∀ (fuel : Nat) (target : String) (i : Nat) (t : String),
      renameLoop cfg fs path dt target i fuel = some (.doRename t) →
      fsExists fs t = false := by
  intro fuel
  induction fuel with
  | zero => intro target i t h; simp [renameLoop] at h
  | succ n ih =>
    intro target i t h
    rw [renameLoop] at h
    split at h
    · split at h
      · simp at h
      · exact ih _ _ _ h
    · simp only [Option.some.injEq, Decision.doRename.injEq] at h
      subst h
      simp_all

/-- A successful lookup means the pair is in the list. -/
theorem lookup_mem {l : List (Nat × String)} {k : Nat} {v : String}
    (h : l.lookup k = some v) : (k, v) ∈ l := by
  induction l with
  | nil => simp [List.lookup] at h
  | cons hd tl ih =>
    obtain ⟨a, b⟩ := hd
    rw [List.lookup] at h
    rcases hk : (k == a) with _ | _
    · simp only [hk] at h
      exact List.mem_cons_of_mem _ (ih h)
    · simp only [hk, Option.some.injEq] at h
      have hka : k = a := eq_of_beq hk
      subst hka
      subst h
      exact List.mem_cons_self _ _

/-- When no timezone format parses a value, `tzFromStr` yields nothing. -/
theorem tzFromStr_eq_none {v : String}
    (h : ∀ f ∈ timezoneFormats, strptime v f = none) : tzFromStr v = none := by
  have h1 := h "+%H:%M" (by simp [timezoneFormats])
  have h2 := h "%H:%M" (by simp [timezoneFormats])
  have h3 := h "+%H" (by simp [timezoneFormats])
  have h4 := h "%H" (by simp [timezoneFormats])
  simp [tzFromStr, timezoneFormats, List.findSome?, h1, h2, h3, h4]

/-- When every value stored under the candidate keys fails every timezone
format, the candidate-key search yields nothing. -/
theorem keys_findSome_eq_none (entries : List (Nat × String))
    (hfail : ∀ k v, entries.lookup k = some v → tzFromStr v = none) :
    ∀ keys : List Nat,
      keys.findSome? (fun k => (entries.lookup k).bind tzFromStr) = none := by
  intro keys
  induction keys with
  | nil => rfl
  | cons k ks ih =>
    rcases hk : entries.lookup k with _ | v
    · simpa [List.findSome?_cons, hk] using ih
    · simpa [List.findSome?_cons, hk, hfail k v hk] using ih

/-- Fact: `applyArgs` only overrides prefix, suffix and time format; the extension
list of the variant is kept. -/
theorem applyArgs_extensions (cfg : Cfg) (args : Args) :
    (applyArgs cfg args).extensions = cfg.extensions := by
  unfold applyArgs
  rcases args with ⟨p, s, t, _, _, _, _⟩
  rcases p with _ | p <;> rcases s with _ | s <;> rcases t with _ | t <;>
    simp only <;> (repeat' split) <;> rfl

/-- Embeds `Video.after_rename` in a dry run never changes the filesystem. -/
theorem afterVideoRename_dry_fs (args : Args) (ff : Ffmpeg) (p : String) (fs : FS) :
    (afterVideoRename args ff p true fs).2 = fs := by
  unfold afterVideoRename
  split
  · rfl
  · rcases h1 : fsLookup fs (withSuffix p (".output" ++ pathSuffix p)) with _ | ts
    · simp [h1]
    · rcases h2 : fsLookup fs p with _ | ns
      · simp [h1, h2]
      · by_cases h3 : ns ≤ ts <;> simp [h1, h2, h3]

/-- Embeds `Video.after_rename` in a dry run with no stale `.output` temporary next
to the file returns `UNCHANGED` with the unchanged path and filesystem. -/
theorem afterVideoRename_dry_noTmp (args : Args) (ff : Ffmpeg) (p : String) (fs : FS)
    (h : fsLookup fs (withSuffix p (".output" ++ pathSuffix p)) = none) :
    afterVideoRename args ff p true fs = (.ok (.UNCHANGED, p), fs) := by
  unfold afterVideoRename
  split
  · rfl
  · simp [h]

/-- A freshly written file is found with the written size. -/
theorem fsLookup_fsWrite_self (l : FS) (p : String) (s : Nat) :
    fsLookup (fsWrite l p s) p = some s := by
  simp [fsWrite, fsLookup]

/-- Unlinking one path leaves lookups of other paths unchanged. -/
theorem fsLookup_fsUnlink_ne (l : FS) (p q : String) (h : p ≠ q) :
    fsLookup (fsUnlink l q) p = fsLookup l p := by
  induction l with
  | nil => rfl
  | cons e tl ih =>
    by_cases he : e.1 = q
    · have hep : ¬e.1 = p := fun hh => h (hh.symm.trans he)
      simp [fsUnlink, fsLookup, he, hep, ih, h, Ne.symm h]
    · by_cases hep : e.1 = p <;> simp [fsUnlink, fsLookup, he, hep, ih, h, Ne.symm h]

/-- Writing one path leaves lookups of other paths unchanged. -/
theorem fsLookup_fsWrite_ne (l : FS) (p q : String) (s : Nat) (h : q ≠ p) :
    fsLookup (fsWrite l p s) q = fsLookup l q := by
  have hpq : ¬p = q := fun hh => h hh.symm
  simp only [fsWrite, fsLookup, if_neg hpq]
  exact fsLookup_fsUnlink_ne l q p h

/-- Renaming `old` to a path absent from the filesystem makes the new path
carry the content of `old`. -/
theorem fsLookup_fsRename_new (l : FS) (old new : String) (s : Nat)
    (hnew : fsExists l new = false) (hold : fsLookup l old = some s) :
    fsLookup (fsRename l old new) new = some s := by
  induction l with
  | nil => simp [fsLookup] at hold
  | cons e tl ih =>
    have hne : ¬e.1 = new := by
      intro hh
      simp [fsExists, hh] at hnew
    have hnewtl : fsExists tl new = false := by
      by_cases hh : e.1 = new
      · exact absurd hh hne
      · simpa [fsExists, hh] using hnew
    by_cases heo : e.1 = old
    · simp only [fsLookup, if_pos heo] at hold
      simp [fsRename, fsLookup, if_pos heo, hold]
    · simp only [fsLookup, if_neg heo] at hold
      simp [fsRename, fsLookup, if_neg heo, hne, ih hnewtl hold]

/-- After a rename away from `old` (to a different name), `old` is gone. -/
theorem fsExists_fsRename_old (l : FS) (old new : String) (h : old ≠ new) :
    fsExists (fsRename l old new) old = false := by
  induction l with
  | nil => rfl
  | cons e tl ih =>
    have hno : ¬new = old := fun hh => h hh.symm
    by_cases heo : e.1 = old <;> simp [fsRename, fsExists, heo, hno, ih]

/-- A path absent before a rename and different from the rename target is
still absent afterwards. -/
theorem fsExists_fsRename_other (l : FS) (old new p : String)
    (h : fsExists l p = false) (hp : p ≠ new) :
    fsExists (fsRename l old new) p = false := by
  induction l with
  | nil => rfl
  | cons e tl ih =>
    have hep : ¬e.1 = p := by
      intro hh
      simp [fsExists, hh] at h
    have htl : fsExists tl p = false := by
      simpa [fsExists, hep] using h
    have hnp : ¬new = p := fun hh => hp hh.symm
    by_cases heo : e.1 = old <;> simp [fsRename, fsExists, heo, hnp, hep, ih htl]

/-- Unlinking a path removes it. -/
theorem fsExists_fsUnlink_self (l : FS) (p : String) :
    fsExists (fsUnlink l p) p = false := by
  induction l with
  | nil => rfl
  | cons e tl ih =>
    by_cases he : e.1 = p <;> simp [fsUnlink, fsExists, he, ih]

/-- Unlinking cannot make an absent path appear. -/
theorem fsExists_fsUnlink_mono (l : FS) (p q : String) (h : fsExists l p = false) :
    fsExists (fsUnlink l q) p = false := by
  induction l with
  | nil => rfl
  | cons e tl ih =>
    have hep : ¬e.1 = p := by
      intro hh
      simp [fsExists, hh] at h
    have htl : fsExists tl p = false := by
      simpa [fsExists, hep] using h
    by_cases he : e.1 = q <;> simp [fsUnlink, fsExists, he, hep, ih htl]

/-! ## Claim C1 -/

/-- C1: the rename engine never performs a filesystem rename onto a path that
exists: whenever the collision search (counterless candidate first, then
counters from 2 growing strictly while the candidate exists) decides to
rename onto `t`, the path `t` did not exist on disk; and in the two-file
scenario where both files resolve to the same target name, the second file
receives the counter-2 name. -/
theorem rename_never_targets_existing_path (cfg : Cfg) (fs : FS) (path : String)
    (dt : DateTime) (fuel : Nat) (t : String)
    (h : renameDecide cfg fs path dt fuel = some (.doRename t)) :
    fsExists fs t = false ∧
    renameDecide videoCfg fsTwo "d/a.mp4" dt0 20
      = some (.doRename "d/VID_20230501_100000.mp4") ∧
    renameDecide videoCfg (fsRename fsTwo "d/a.mp4" "d/VID_20230501_100000.mp4")
      "d/b.mp4" dt0 20 = some (.doRename "d/VID_20230501_100000_2.mp4") := by
  refine ⟨?_, by decide, by decide⟩
  rw [renameDecide] at h
  split at h
  · simp at h
  · exact renameLoop_doRename_not_exists cfg fs path dt fuel _ 2 t h

/-- Witness for C1 at a concrete input: the decided target of the first
scenario file does not pre-exist. -/
theorem rename_never_targets_existing_path_witness :
    fsExists fsTwo "d/VID_20230501_100000.mp4" = false ∧
    renameDecide videoCfg fsTwo "d/a.mp4" dt0 20
      = some (.doRename "d/VID_20230501_100000.mp4") ∧
    renameDecide videoCfg (fsRename fsTwo "d/a.mp4" "d/VID_20230501_100000.mp4")
      "d/b.mp4" dt0 20 = some (.doRename "d/VID_20230501_100000_2.mp4") :=
  rename_never_targets_existing_path videoCfg fsTwo "d/a.mp4" dt0 20
    "d/VID_20230501_100000.mp4" (by decide)

/-! ## Claim C2 -/

/-- C2: the first half of the claim holds (a candidate equal to the current
path yields `Unchanged`), but the second half fails on the code: processing a
fresh file actually renames it on disk yet STILL reports `UNCHANGED` — the
base `after_rename` hook discards the `RENAMED` status it is handed, so
`Status.RENAMED` is unreachable — and the second, idempotent run reports
`UNCHANGED` again with the filesystem untouched. -/
theorem process_twice_returns_unchanged_twice :
    executeByPath [("d/IMG_0001.JPG", 10)] "d/IMG_0001.JPG" {} none none none envC2 20
      = some (.ok .UNCHANGED, [("d/IMG_20230501_100000.jpg.jpeg.png", 10)]) ∧
    [("d/IMG_20230501_100000.jpg.jpeg.png", 10)] ≠ [(("d/IMG_0001.JPG" : String), (10 : Nat))] ∧
    executeByPath [("d/IMG_20230501_100000.jpg.jpeg.png", 10)]
      "d/IMG_20230501_100000.jpg.jpeg.png" {} none none none envC2 20
      = some (.ok .UNCHANGED, [("d/IMG_20230501_100000.jpg.jpeg.png", 10)]) := by
  refine ⟨by decide, by decide, by decide⟩

/-! ## Claim C4 -/

/-- C4: a present date key whose value does not parse under the FIRST date
format is not "treated as absent": `Image.get_creation_time` raises
`UnboundLocalError` instead of continuing with the remaining formats — here
for a value that the second configured format would parse. -/
theorem unparsed_first_format_raises_unbound :
    Image.getCreationTime [("Exif", [(36867, "2023-05-01 10:00:00")])] "IMG_0001.JPG"
      = .error .unboundLocalError ∧
    strptime "2023-05-01 10:00:00" "%Y-%m-%d %H:%M:%S"
      = some ⟨2023, 5, 1, 10, 0, 0, 0, none⟩ ∧
    dateFormats.getD 1 "" = "%Y-%m-%d %H:%M:%S" := by
  refine ⟨by decide, by decide, by decide⟩

/-! ## Claim C5 -/

/-- C5 counterexample: for the scenario metadata of the specification the
timestamp resolves as claimed (10:00:00 at UTC+02:00), but name generation
yields `IMG_20230501_100000.jpg.jpeg.png`, not the claimed
`IMG_20230501_100000.JPG`: `Image` declares a fixed extension set and
`get_name` appends the WHOLE declared set. -/
theorem scenario_name_not_preserving_extension :
    Image.getCreationTime exifC5 "IMG_0001.JPG" = .ok dtC5 ∧
    getName imageCfg "d/IMG_0001.JPG" dtC5 none none
      = "d/IMG_20230501_100000.jpg.jpeg.png" ∧
    "d/IMG_20230501_100000.jpg.jpeg.png" ≠ "d/IMG_20230501_100000.JPG" := by
  refine ⟨by decide, by decide, by decide⟩

/-- C5 amended: with a declared fixed extension set the whole set is joined
onto the generated name (giving `IMG_20230501_100000.jpg.jpeg.png` in the
scenario); only when no set is declared are the existing extensions of the original file appended (which would give `IMG_20230501_100000.JPG`). -/
theorem scenario_name_appends_declared_extension_set :
    getName imageCfg "d/IMG_0001.JPG" dtC5 none none
      = "d/IMG_20230501_100000.jpg.jpeg.png" ∧
    getName { imageCfg with extensions := [] } "d/IMG_0001.JPG" dtC5 none none
      = "d/IMG_20230501_100000.JPG" := by
  refine ⟨by decide, by decide⟩

/-! ## Claim C6 -/

/-- C6: under `--ignore-timezone` a naive timestamp is NOT reinterpreted as
UTC: `astimezone(timezone.utc)` presumes it is system-local and shifts the
clock — on a UTC+02:00 system, naive 10:00:00 becomes 08:00:00+00:00 (and the
generated filename carries `080000`), not the claimed unchanged clock. -/
theorem ignore_timezone_shifts_clock :
    adjustTime { ignoreTimezone := true } envC6 none none dt0
      = ⟨2023, 5, 1, 8, 0, 0, 0, some 0⟩ ∧
    (⟨2023, 5, 1, 8, 0, 0, 0, some 0⟩ : DateTime) ≠ ⟨2023, 5, 1, 10, 0, 0, 0, some 0⟩ ∧
    executeByPath [("d/IMG_0001.JPG", 1)] "d/IMG_0001.JPG" { ignoreTimezone := true }
      none none none envC6 20
      = some (.ok .UNCHANGED, [("d/IMG_20230501_080000.jpg.jpeg.png", 1)]) := by
  refine ⟨by decide, by decide, by decide⟩

/-! ## Claim C7 -/

/-- C7 counterexample: a dry run returns the ORIGINAL path of the file while the
non-dry run on the same state chooses (and renames onto) a different target,
so the dry run does not report a path consistent with what a non-dry run
would have chosen. -/
theorem dry_run_path_differs_from_wet_run :
    imageRename imageCfg [("d/IMG_0001.JPG", 1)] "d/IMG_0001.JPG" dtC5 true 20
      = some (.ok (.UNCHANGED, "d/IMG_0001.JPG"), [("d/IMG_0001.JPG", 1)]) ∧
    imageRename imageCfg [("d/IMG_0001.JPG", 1)] "d/IMG_0001.JPG" dtC5 false 20
      = some (.ok (.UNCHANGED, "d/IMG_20230501_100000.jpg.jpeg.png"),
          [("d/IMG_20230501_100000.jpg.jpeg.png", 1)]) ∧
    "d/IMG_0001.JPG" ≠ "d/IMG_20230501_100000.jpg.jpeg.png" := by
  refine ⟨by decide, by decide, by decide⟩

/-- C7 amended: a dry run never mutates the filesystem (for the base/image
rename and for the video rename, including the thumbnail post-step), and it
returns `Unchanged` with the ORIGINAL path of the file — the would-be target is
discarded; for a video the `Unchanged` return additionally needs no stale
`.output` temporary next to the file, since the not-dry-guarded post-step
cleanup check would read the unassigned `thumbnail_path` and raise
`UnboundLocalError` (still without mutating anything). -/
theorem dry_run_never_mutates (cfg : Cfg) (args : Args) (ff : Ffmpeg) (fs : FS)
    (path : String) (dt : DateTime) (fuel : Nat) :
    (imageRename cfg fs path dt true fuel).getD (.ok (.UNCHANGED, path), fs)
      = (.ok (.UNCHANGED, path), fs) ∧
    ((videoRename args ff cfg fs path dt true fuel).getD
      (.ok (.UNCHANGED, path), fs)).2 = fs ∧
    (fsLookup fs (withSuffix path (".output" ++ pathSuffix path)) = none →
      (videoRename args ff cfg fs path dt true fuel).getD (.ok (.UNCHANGED, path), fs)
        = (.ok (.UNCHANGED, path), fs)) := by
  refine ⟨?_, ?_, ?_⟩
  · rcases hd : renameDecide cfg fs path dt fuel with _ | d
    · simp [imageRename, hd]
    · cases d <;> simp [imageRename, hd]
  · rcases hd : renameDecide cfg fs path dt fuel with _ | d
    · simp [videoRename, hd]
    · cases d <;> simp [videoRename, hd, afterVideoRename_dry_fs]
  · intro h
    rcases hd : renameDecide cfg fs path dt fuel with _ | d
    · simp [videoRename, hd]
    · cases d <;> simp [videoRename, hd, afterVideoRename_dry_noTmp args ff path fs h]

/-- Witness for C7 at a concrete input: a dry video run on a file with no
stale temporary returns `Unchanged` with the original path and filesystem. -/
theorem dry_run_never_mutates_witness :
    (videoRename {} {} videoCfg [("d/a.mp4", 1)] "d/a.mp4" dt0 true 5).getD
      (.ok (.UNCHANGED, "d/a.mp4"), [("d/a.mp4", 1)])
      = (.ok (.UNCHANGED, "d/a.mp4"), [("d/a.mp4", 1)]) :=
  (dry_run_never_mutates videoCfg {} {} [("d/a.mp4", 1)] "d/a.mp4" dt0 5).2.2 (by decide)

/-! ## Claim C3 -/

/-- C3 counterexample: for a video file missing the `creation_time` stream
tag, `execute_by_path` does NOT return the `Error` outcome — the
`LookupError` raised by `Video.get_creation_time` propagates uncaught (there
is no handler in `execute_by_path` or in `main`), so the batch aborts. -/
theorem missing_creation_time_raises_uncaught :
    executeByPath [("d/clip.mp4", 1)] "d/clip.mp4" {} none none none envC3 20
      = some (.error (.lookupError "Could not find creation time tag for file clip.mp4"),
          [("d/clip.mp4", 1)]) ∧
    (Except.error (PyErr.lookupError "Could not find creation time tag for file clip.mp4")
      ≠ (Except.ok Status.ERROR : Except PyErr Status)) := by
  refine ⟨by decide, by decide⟩

/-- C3 amended: a per-file error is NOT caught at the engine boundary: for
any `.mp4` file whose probed first stream lacks a `creation_time` tag,
`execute_by_path` lets the `LookupError` escape (aborting the batch); no
rename is attempted (the filesystem is returned unchanged).  The `Error`
outcome only arises when no extractor extension/filter check selects the
file. -/
theorem missing_creation_time_error_propagates (fs : FS) (path : String) (args : Args)
    (mt tz : Option Int) (env : Env) (fuel : Nat)
    (tags : List (String × String)) (rest : List (Option (List (String × String))))
    (hsfx : pathSuffix path = ".mp4")
    (hstreams : env.videoMeta.streams = some (some tags :: rest))
    (hmiss : tags.lookup "creation_time" = none) :
    executeByPath fs path args mt tz none env fuel
      = some (.error (.lookupError
          ("Could not find creation time tag for file " ++ pathName path)), fs) := by
  have himg : (applyArgs imageCfg args).use path = false := by
    rw [Cfg.use, applyArgs_extensions, hsfx]
    decide
  have hvid : (applyArgs videoCfg args).use path = true := by
    rw [Cfg.use, applyArgs_extensions, hsfx]
    decide
  simp only [executeByPath, himg, Bool.false_and, Bool.false_eq_true, if_false, hvid,
    filtersPass, Bool.and_true, Bool.true_and, if_true, Video.getCreationTime,
    hstreams, hmiss]

/-- Witness for C3 (amended) at a concrete input. -/
theorem missing_creation_time_error_propagates_witness :
    executeByPath [("d/clip.mp4", 1)] "d/clip.mp4" {} none none none envC3 20
      = some (.error (.lookupError
          ("Could not find creation time tag for file " ++ pathName "d/clip.mp4")),
          [("d/clip.mp4", 1)]) :=
  missing_creation_time_error_propagates [("d/clip.mp4", 1)] "d/clip.mp4" {} none none
    envC3 20 [("language", "eng")] [] (by decide) (by decide) (by decide)

/-! ## Claim C8 -/

/-- C8: timezone resolution returns the first key-and-format combination that
parses — `OffsetTime` (absent) is skipped and `OffsetTimeOriginal="+02:00"`
resolves to UTC+2 (120 minutes); with both `OffsetTime="+01:00"` and
`OffsetTimeOriginal="+02:00"` present the earlier key wins; a value the
signed format rejects falls through to the unsigned `%H:%M` format; and when
no candidate key value parses under any of the four ordered formats the
result is `no timezone known` (`none`), not an error. -/
theorem timezone_resolution_first_match_wins (entries : List (Nat × String))
    (exifDict : ExifDict) (group : String)
    (hg : exifDict.lookup group = some entries)
    (hfail : ∀ kv ∈ entries, ∀ f ∈ timezoneFormats, strptime kv.2 f = none) :
    Image.getTimeZone group exifDict = .ok none ∧
    Image.getTimeZone "Exif" [("Exif", [(36881, "+02:00")])] = .ok (some 120) ∧
    Image.getTimeZone "Exif" [("Exif", [(36880, "+01:00"), (36881, "+02:00")])]
      = .ok (some 60) ∧
    tzFromStr "05:30" = some 330 := by
  refine ⟨?_, by decide, by decide, by decide⟩
  have hf : ∀ k v, entries.lookup k = some v → tzFromStr v = none := fun k v hkv =>
    tzFromStr_eq_none (fun f hf2 => hfail (k, v) (lookup_mem hkv) f hf2)
  rcases hk : timezoneKeys.lookup group with _ | keys <;>
    simp only [Image.getTimeZone, hk, hg]
  rw [keys_findSome_eq_none entries hf keys]

/-- Witness for C8 at a concrete input: a group whose only candidate value
parses under no format resolves to `none` without an error. -/
theorem timezone_resolution_first_match_wins_witness :
    Image.getTimeZone "0th" [("0th", [(34858, "abc")])] = .ok none ∧
    Image.getTimeZone "Exif" [("Exif", [(36881, "+02:00")])] = .ok (some 120) ∧
    Image.getTimeZone "Exif" [("Exif", [(36880, "+01:00"), (36881, "+02:00")])]
      = .ok (some 60) ∧
    tzFromStr "05:30" = some 330 :=
  timezone_resolution_first_match_wins [(34858, "abc")] [("0th", [(34858, "abc")])]
    "0th" (by decide) (by decide)

/-! ## Claim C9 -/

/-- C9: a file matches the filters iff every filter key is present in the
metadata mapping with an exactly equal string value (AND semantics; a missing
key or a mismatched value excludes the file); and a filter mismatch does not
raise — the file is skipped and `execute_by_path` returns the non-Renamed
`Error` outcome with the filesystem untouched. -/
theorem filter_and_semantics (d fl : List (String × String)) :
    (matchesFilters d fl = true ↔ ∀ kv ∈ fl, d.lookup kv.1 = some kv.2) ∧
    executeByPath [("d/clip.mp4", 1)] "d/clip.mp4" {} none none (some [("k", "1")]) envC9 20
      = some (.ok .ERROR, [("d/clip.mp4", 1)]) := by
  refine ⟨?_, by decide⟩
  induction fl with
  | nil => simp [matchesFilters]
  | cons kv rest ih =>
    obtain ⟨k, v⟩ := kv
    rcases h : d.lookup k with _ | dv
    · simp [matchesFilters, h]
    · by_cases hv : dv = v
      · subst hv
        simp [matchesFilters, h, ih]
      · simp [matchesFilters, h, hv]

/-- Witness for C9 at a concrete input: the skip scenario of the theorem. -/
theorem filter_and_semantics_witness :
    executeByPath [("d/clip.mp4", 1)] "d/clip.mp4" {} none none (some [("k", "1")]) envC9 20
      = some (.ok .ERROR, [("d/clip.mp4", 1)]) :=
  (filter_and_semantics [] []).2

/-! ## Claim C10 -/

/-- C10: after a successful non-dry video rename (here of `d/v.mp4` onto the
generated `d/VID_20230501_100000.mp4`) with thumbnail creation enabled and
both ffmpeg invocations succeeding, when the written `.output` temporary is
at least as large as the renamed video, the post-step deletes both the
sibling `.jpg` thumbnail and the renamed video and moves the temporary onto
the renamed path: the reported path now holds the content of the temporary, the
temporary and thumbnail are gone, and (when the sizes differ) the filesystem
differs from the rename-only result — the post-step mutates beyond the
rename itself. -/
theorem video_post_step_rewrites_renamed_file (fs : FS) (vs : Nat) (ff : Ffmpeg)
    (fuel : Nat)
    (hpath : fsLookup fs "d/v.mp4" = some vs)
    (hnew : fsExists fs "d/VID_20230501_100000.mp4" = false)
    (hthumb : ff.thumbOk = true) (hmux : ff.muxOk = true)
    (hsize : vs ≤ ff.tmpSize) :
    (videoRename {} ff videoCfg fs "d/v.mp4" dt0 false (fuel + 1)).isSome = true ∧
    ∀ r, videoRename {} ff videoCfg fs "d/v.mp4" dt0 false (fuel + 1) = some r →
      r.1 = .ok (.UNCHANGED, "d/VID_20230501_100000.mp4") ∧
      fsLookup r.2 "d/VID_20230501_100000.mp4" = some ff.tmpSize ∧
      fsExists r.2 "d/VID_20230501_100000.output.mp4" = false ∧
      fsExists r.2 "d/VID_20230501_100000.jpg" = false ∧
      (ff.tmpSize ≠ vs → r.2 ≠ fsRename fs "d/v.mp4" "d/VID_20230501_100000.mp4") := by
  have hname : getName videoCfg "d/v.mp4" dt0 none none
      = "d/VID_20230501_100000.mp4" := by decide
  have hdec : renameDecide videoCfg fs "d/v.mp4" dt0 (fuel + 1)
      = some (.doRename "d/VID_20230501_100000.mp4") := by
    rw [renameDecide, hname, if_neg (by decide), renameLoop, hnew]
    simp
  have htmp : withSuffix "d/VID_20230501_100000.mp4"
      (".output" ++ pathSuffix "d/VID_20230501_100000.mp4")
      = "d/VID_20230501_100000.output.mp4" := by decide
  have hthumbp : withSuffix "d/VID_20230501_100000.mp4" ".jpg"
      = "d/VID_20230501_100000.jpg" := by decide
  have hfs1 : fsLookup (fsRename fs "d/v.mp4" "d/VID_20230501_100000.mp4")
      "d/VID_20230501_100000.mp4" = some vs :=
    fsLookup_fsRename_new fs "d/v.mp4" "d/VID_20230501_100000.mp4" vs hnew hpath
  have hlook2 : fsLookup (fsWrite (fsWrite (fsRename fs "d/v.mp4"
      "d/VID_20230501_100000.mp4") "d/VID_20230501_100000.jpg" ff.thumbSize)
      "d/VID_20230501_100000.output.mp4" ff.tmpSize)
      "d/VID_20230501_100000.mp4" = some vs := by
    rw [fsLookup_fsWrite_ne _ _ _ _ (by decide), fsLookup_fsWrite_ne _ _ _ _ (by decide)]
    exact hfs1
  have hrun : videoRename {} ff videoCfg fs "d/v.mp4" dt0 false (fuel + 1)
      = some (.ok (.UNCHANGED, "d/VID_20230501_100000.mp4"),
          fsRename (fsUnlink (fsUnlink (fsWrite (fsWrite (fsRename fs "d/v.mp4"
              "d/VID_20230501_100000.mp4") "d/VID_20230501_100000.jpg" ff.thumbSize)
              "d/VID_20230501_100000.output.mp4" ff.tmpSize)
              "d/VID_20230501_100000.jpg") "d/VID_20230501_100000.mp4")
            "d/VID_20230501_100000.output.mp4" "d/VID_20230501_100000.mp4") := by
    rw [videoRename, hdec]
    simp only [Bool.false_eq_true, if_false, afterVideoRename, htmp, hthumbp, hthumb, hmux,
      Bool.not_true, fsLookup_fsWrite_self, hlook2]
    simp [hsize]
  refine ⟨by rw [hrun]; rfl, ?_⟩
  intro r hr
  rw [hrun] at hr
  injection hr with hr
  subst hr
  refine ⟨rfl, ?_, ?_, ?_, ?_⟩
  · exact fsLookup_fsRename_new _ _ _ _
      (fsExists_fsUnlink_self _ _)
      (by
        rw [fsLookup_fsUnlink_ne _ _ _ (by decide), fsLookup_fsUnlink_ne _ _ _ (by decide)]
        exact fsLookup_fsWrite_self _ _ _)
  · exact fsExists_fsRename_old _ _ _ (by decide)
  · exact fsExists_fsRename_other _ _ _ _
      (fsExists_fsUnlink_mono _ _ _ (fsExists_fsUnlink_self _ _)) (by decide)
  · intro hne heq
    apply hne
    have hcong := congrArg (fun l => fsLookup l "d/VID_20230501_100000.mp4") heq
    simp only at hcong
    rw [fsLookup_fsRename_new _ _ _ _
        (fsExists_fsUnlink_self _ _)
        (by
          rw [fsLookup_fsUnlink_ne _ _ _ (by decide), fsLookup_fsUnlink_ne _ _ _ (by decide)]
          exact fsLookup_fsWrite_self _ _ _),
      fsLookup_fsRename_new fs _ _ vs hnew hpath] at hcong
    injection hcong

/-- Witness for C10 at a concrete input. -/
theorem video_post_step_rewrites_renamed_file_witness :
    (videoRename {} { thumbOk := true, thumbSize := 3, muxOk := true, tmpSize := 7 }
      videoCfg [("d/v.mp4", 5)] "d/v.mp4" dt0 false 1).isSome = true ∧
    ∀ r, videoRename {} { thumbOk := true, thumbSize := 3, muxOk := true, tmpSize := 7 }
        videoCfg [("d/v.mp4", 5)] "d/v.mp4" dt0 false 1 = some r →
      r.1 = .ok (.UNCHANGED, "d/VID_20230501_100000.mp4") ∧
      fsLookup r.2 "d/VID_20230501_100000.mp4"
        = some (Ffmpeg.tmpSize { thumbOk := true, thumbSize := 3, muxOk := true, tmpSize := 7 }) ∧
      fsExists r.2 "d/VID_20230501_100000.output.mp4" = false ∧
      fsExists r.2 "d/VID_20230501_100000.jpg" = false ∧
      (Ffmpeg.tmpSize { thumbOk := true, thumbSize := 3, muxOk := true, tmpSize := 7 } ≠ 5 →
        r.2 ≠ fsRename [("d/v.mp4", 5)] "d/v.mp4" "d/VID_20230501_100000.mp4") :=
  video_post_step_rewrites_renamed_file [("d/v.mp4", 5)] 5
    { thumbOk := true, thumbSize := 3, muxOk := true, tmpSize := 7 } 0
    (by decide) (by decide) rfl rfl (by decide)

end ExifRename



